import Mathlib

/-!
Verification of the detection-and-mitigation core of `detect_and_mitigate.py`.

The pipeline of `main` (node-table classification, dynamic ban limits,
heuristic detectors, banlist merge/preservation/truncation, global safety
rollback, and the writer conditions) is embedded as executable Lean
definitions.  Machine integers are `Nat`; the real-valued arithmetic of the
heuristic thresholds (Python floats) is modelled exactly by unreduced
integer fractions (`Frac`), whose denominators are always positive by
construction; every concrete input evaluated below stays far from any
floating-point rounding boundary, so the exact arithmetic agrees with the
float arithmetic there.  Files are lists of lines, a line being a list of
characters; reading a missing file is modelled by `Option`.
-/

/-- Ground-truth label of a node, as found in the `node_type` column. -/
inductive NodeType where
  | NORMAL
  | BLACKHOLE
  | WORMHOLE
  | BANNED
deriving DecidableEq, BEq

/-- One row of the node-statistics table, as parsed in `main`. -/
structure Node where
  node_id : Nat
  txPackets : Nat
  rxPackets : Nat
  fwdPackets : Nat
  node_type : NodeType
deriving DecidableEq

/-- The four attack scenarios returned by `get_attack_type_from_stats`. -/
inductive AttackType where
  | baseline
  | blackhole
  | wormhole
  | mixed
deriving DecidableEq, BEq

/-- Exact fraction `num / den`; every `Frac` built below has `den > 0`. -/
structure Frac where
  num : Int
  den : Int
deriving DecidableEq

def Frac.ofNat (n : Nat) : Frac := ⟨(n : Int), 1⟩

def Frac.add (a b : Frac) : Frac := ⟨a.num * b.den + b.num * a.den, a.den * b.den⟩

def Frac.mul (a b : Frac) : Frac := ⟨a.num * b.num, a.den * b.den⟩

/-- Division; only used with a positive divisor. -/
def Frac.div (a b : Frac) : Frac := ⟨a.num * b.den, a.den * b.num⟩

/-- `a < b` by cross-multiplication; valid because denominators are positive. -/
def Frac.lt (a b : Frac) : Bool := a.num * b.den < b.num * a.den

/-- Python `max(a, b)`: returns `b` exactly when `a < b`. -/
def Frac.fmax (a b : Frac) : Frac := if Frac.lt a b then b else a

/-- Insert into an ascending list, keeping stable order for equal keys. -/
def insertLe (a : Nat) : List Nat → List Nat
  | [] => [a]
  | b :: t => if a ≤ b then a :: b :: t else b :: insertLe a t

/-- Ascending insertion sort, modelling Python `sorted` on a list of ints. -/
def sortNat (l : List Nat) : List Nat := l.foldr insertLe []

/-- `statistics.median` on a list of ints: the middle element for odd
length, the mean of the two middle elements for even length. -/
def median (l : List Nat) : Frac :=
  let s := sortNat l
  let n := s.length
  if n % 2 = 1 then Frac.ofNat (s.getD (n / 2) 0)
  else Frac.div (Frac.add (Frac.ofNat (s.getD (n / 2 - 1) 0)) (Frac.ofNat (s.getD (n / 2) 0))) (Frac.ofNat 2)

/-- Insert into a strictly ascending list, dropping a duplicate. -/
def insertND (a : Nat) : List Nat → List Nat
  | [] => [a]
  | b :: t =>
    if a < b then a :: b :: t
    else if a = b then b :: t
    else b :: insertND a t

/-- Python `sorted(set(l))`: the strictly ascending duplicate-free list with
the same members as `l`. -/
def sortedDedup (l : List Nat) : List Nat := l.foldr insertND []

/-- `get_attack_type_from_stats`: classify the run from the label counts. -/
def get_attack_type_from_stats (nodes : List Node) : AttackType :=
  let blackhole_count := (nodes.filter (fun n => n.node_type == NodeType.BLACKHOLE)).length
  let wormhole_count := (nodes.filter (fun n => n.node_type == NodeType.WORMHOLE)).length
  if blackhole_count > 0 ∧ wormhole_count = 0 then AttackType.blackhole
  else if wormhole_count > 0 ∧ blackhole_count = 0 then AttackType.wormhole
  else if blackhole_count = 0 ∧ wormhole_count = 0 then AttackType.baseline
  else AttackType.mixed

/-- `calculate_dynamic_limits`.  `int(total_nodes * 0.25)` truncates toward
zero, which on a natural number equals floor division by 4. -/
def calculate_dynamic_limits (nodes : List Node) (known_blackholes known_wormholes : List Node)
    (attack_type : AttackType) : Nat × Nat :=
  let total_nodes := nodes.length
  let max_total_ban := max 6 (total_nodes / 4)
  let known_blackhole_count := known_blackholes.length
  let known_wormhole_count := known_wormholes.length
  if attack_type = AttackType.blackhole then
    (min max_total_ban (known_blackhole_count + 1), known_wormhole_count)
  else if attack_type = AttackType.wormhole then
    (known_blackhole_count, min max_total_ban (known_wormhole_count + 1))
  else
    (min max_total_ban (known_blackhole_count + 1), min max_total_ban (known_wormhole_count + 1))

/-- `detect_blackholes`: empty unless the scenario is `blackhole`; otherwise
flag the available nodes passing all four threshold tests, in table order.
The thresholds `2.5` and `0.25` are the fractions `5/2` and `1/4`. -/
def detect_blackholes (nodes : List Node) (median_rx : Frac) (available_nodes : List Nat)
    (attack_type : AttackType) : List Nat :=
  if attack_type ≠ AttackType.blackhole then []
  else
    (nodes.filter (fun node =>
      available_nodes.contains node.node_id &&
      (node.fwdPackets == 0) &&
      Frac.lt (Frac.fmax (Frac.ofNat 40) (Frac.mul median_rx ⟨5, 2⟩)) (Frac.ofNat node.rxPackets) &&
      Frac.lt (Frac.ofNat node.txPackets) (Frac.mul (Frac.ofNat node.rxPackets) ⟨1, 4⟩) &&
      decide (node.rxPackets > 30))).map (fun node => node.node_id)

/-- `detect_wormholes`: empty unless the scenario is `wormhole`; otherwise
flag the available nodes passing all four threshold tests, in table order.
`0.001`, `5.0`, `0.05`, `0.25`, `0.15` are `1/1000`, `5`, `1/20`, `1/4`,
`3/20`. -/
def detect_wormholes (nodes : List Node) (median_rx : Frac) (available_nodes : List Nat)
    (attack_type : AttackType) : List Nat :=
  if attack_type ≠ AttackType.wormhole then []
  else
    (nodes.filter (fun node =>
      available_nodes.contains node.node_id &&
      (let fwd_ratio := Frac.div (Frac.ofNat node.fwdPackets) (Frac.add (Frac.ofNat node.rxPackets) ⟨1, 1000⟩)
       Frac.lt (Frac.mul median_rx ⟨5, 1⟩) (Frac.ofNat node.rxPackets) &&
       (Frac.lt ⟨1, 20⟩ fwd_ratio && Frac.lt fwd_ratio ⟨1, 4⟩) &&
       Frac.lt (Frac.ofNat node.txPackets) (Frac.mul (Frac.ofNat node.rxPackets) ⟨3, 20⟩) &&
       decide (node.rxPackets > 50)))).map (fun node => node.node_id)

/-- A banlist file: a list of lines, each a list of characters. -/
abbrev FileLines := List (List Char)

/-- Python `str.strip`: drop whitespace from both ends of a line. -/
def stripLine (l : List Char) : List Char :=
  ((l.dropWhile Char.isWhitespace).reverse.dropWhile Char.isWhitespace).reverse

/-- Python `int` on an already-stripped line.  Node IDs are non-negative, so
only unsigned decimal numerals are modelled; anything else fails. -/
def parseIntLine (l : List Char) : Option Nat :=
  if !l.isEmpty && l.all Char.isDigit then
    some (l.foldl (fun acc c => acc * 10 + (c.toNat - 48)) 0)
  else none

/-- The comprehension `[int(line.strip()) for line in f if line.strip()]`:
blank lines are skipped, and any parse failure aborts the whole read. -/
def loadLinesInner : FileLines → Option (List Nat)
  | [] => some []
  | l :: t =>
    let s := stripLine l
    if s.isEmpty then loadLinesInner t
    else
      match parseIntLine s, loadLinesInner t with
      | some v, some r => some (v :: r)
      | _, _ => none

/-- Reading one preserved banlist file; a parse failure is caught and the
preserved list degrades to empty. -/
def loadBanlistFile (file : FileLines) : List Nat := (loadLinesInner file).getD []

/-- The decimal numeral of `n`, most significant digit first, as written by
`f.write(f"{node_id}\n")` for one line. -/
def natToLine (n : Nat) : List Char :=
  if n = 0 then ['0']
  else (Nat.digits 10 n).reverse.map (fun d => Char.ofNat (48 + d))

/-- The banlist writer: one node ID per line, in list order. -/
def writeBanlist (ids : List Nat) : FileLines := ids.map natToLine

/-- `preserve_existing_banlists`: a category's prior file is loaded exactly
when the current attack type is not that category and the file exists
(`Option.none` models a missing file). -/
def preserve_existing_banlists (attack_type : AttackType)
    (blackholeFile wormholeFile : Option FileLines) : List Nat × List Nat :=
  ((if attack_type ≠ AttackType.blackhole then (blackholeFile.map loadBanlistFile).getD [] else []),
   (if attack_type ≠ AttackType.wormhole then (wormholeFile.map loadBanlistFile).getD [] else []))

/-- The rows labelled `BLACKHOLE` in the current run. -/
def knownBlackholes (nodes : List Node) : List Node :=
  nodes.filter (fun n => n.node_type == NodeType.BLACKHOLE)

/-- The rows labelled `WORMHOLE` in the current run. -/
def knownWormholes (nodes : List Node) : List Node :=
  nodes.filter (fun n => n.node_type == NodeType.WORMHOLE)

def knownBlackholeIds (nodes : List Node) : List Nat :=
  (knownBlackholes nodes).map (fun n => n.node_id)

def knownWormholeIds (nodes : List Node) : List Nat :=
  (knownWormholes nodes).map (fun n => n.node_id)

/-- The active subset: nodes with `rxPackets > 15 or txPackets > 15`. -/
def activeNodes (nodes : List Node) : List Node :=
  nodes.filter (fun n => decide (n.rxPackets > 15) || decide (n.txPackets > 15))

/-- `median_rx` over the active subset. -/
def medianRx (nodes : List Node) : Frac :=
  median ((activeNodes nodes).map (fun n => n.rxPackets))

/-- IDs available for additional detection: not already labelled
`BLACKHOLE`, `WORMHOLE` or `BANNED`. -/
def availableIds (nodes : List Node) : List Nat :=
  (nodes.filter (fun n =>
    !(n.node_type == NodeType.BLACKHOLE || n.node_type == NodeType.WORMHOLE ||
      n.node_type == NodeType.BANNED))).map (fun n => n.node_id)

/-- The dynamic limits of this run, as `main` computes them. -/
def banLimits (nodes : List Node) : Nat × Nat :=
  calculate_dynamic_limits nodes (knownBlackholes nodes) (knownWormholes nodes)
    (get_attack_type_from_stats nodes)

/-- Heuristic blackhole additions: the detector output when the active
subset has more than 15 members, the empty list otherwise (extending a
banlist by an empty detection is the identity, so the conditional append
matches the source's guarded `extend`). -/
def heuristicAdditionsB (nodes : List Node) : List Nat :=
  if (activeNodes nodes).length > 15 then
    detect_blackholes nodes (medianRx nodes) (availableIds nodes) (get_attack_type_from_stats nodes)
  else []

/-- Heuristic wormhole additions, under the same activity gate. -/
def heuristicAdditionsW (nodes : List Node) : List Nat :=
  if (activeNodes nodes).length > 15 then
    detect_wormholes nodes (medianRx nodes) (availableIds nodes) (get_attack_type_from_stats nodes)
  else []

/-- The blackhole banlist just before the limit is applied: the sorted
deduplicated merge of the preserved and known IDs, then the heuristic
detections appended in scan order. -/
def preLimitB (nodes : List Node) (preserved : List Nat) : List Nat :=
  sortedDedup (preserved ++ knownBlackholeIds nodes) ++ heuristicAdditionsB nodes

/-- The wormhole banlist just before the limit is applied. -/
def preLimitW (nodes : List Node) (preserved : List Nat) : List Nat :=
  sortedDedup (preserved ++ knownWormholeIds nodes) ++ heuristicAdditionsW nodes

/-- `banlist[:maxN]` applied only when the list is over the limit. -/
def limitList (maxN : Nat) (l : List Nat) : List Nat :=
  if l.length > maxN then l.take maxN else l

/-- The preserved pair for this run, from the two prior-run files. -/
def preservedLists (nodes : List Node) (blackholeFile wormholeFile : Option FileLines) :
    List Nat × List Nat :=
  preserve_existing_banlists (get_attack_type_from_stats nodes) blackholeFile wormholeFile

/-- The blackhole banlist after limiting and the final `sorted(set(...))`. -/
def assembledBlackholes (nodes : List Node) (blackholeFile wormholeFile : Option FileLines) : List Nat :=
  sortedDedup (limitList (banLimits nodes).1 (preLimitB nodes (preservedLists nodes blackholeFile wormholeFile).1))

/-- The wormhole banlist after limiting and the final `sorted(set(...))`. -/
def assembledWormholes (nodes : List Node) (blackholeFile wormholeFile : Option FileLines) : List Nat :=
  sortedDedup (limitList (banLimits nodes).2 (preLimitW nodes (preservedLists nodes blackholeFile wormholeFile).2))

/-- The combined banlist before the global safety check. -/
def assembledMain (nodes : List Node) (blackholeFile wormholeFile : Option FileLines) : List Nat :=
  sortedDedup (assembledBlackholes nodes blackholeFile wormholeFile ++
    assembledWormholes nodes blackholeFile wormholeFile)

/-- The three final lists plus the writer decisions.  `rolledBack` records
which branch of the global safety check produced the result. -/
structure RunResult where
  blackhole_banlist : List Nat
  wormhole_banlist : List Nat
  main_banlist : List Nat
  rolledBack : Bool
  writeBlackholeFile : Bool
  writeWormholeFile : Bool
deriving DecidableEq

/-- The only unguarded runtime failure of the assembly stage: the ban-ratio
division `len(main_banlist) / len(nodes)` with an empty node table. -/
inductive PipeError where
  | divByZero
deriving DecidableEq

/-- Result of the non-rollback branch of the safety check, with the writer
conditions of lines 274 and 279. -/
def normalResult (nodes : List Node) (blackholeFile wormholeFile : Option FileLines) : RunResult :=
  let attack_type := get_attack_type_from_stats nodes
  let bh := assembledBlackholes nodes blackholeFile wormholeFile
  let wh := assembledWormholes nodes blackholeFile wormholeFile
  { blackhole_banlist := bh,
    wormhole_banlist := wh,
    main_banlist := assembledMain nodes blackholeFile wormholeFile,
    rolledBack := false,
    writeBlackholeFile := (attack_type == AttackType.blackhole) || !bh.isEmpty,
    writeWormholeFile := (attack_type == AttackType.wormhole) || !wh.isEmpty }

/-- Result of the rollback branch: only known-malicious IDs of this run
plus the preserved IDs, with the category lists rebuilt by plain
concatenation (not re-sorted, not re-deduplicated). -/
def rollbackResult (nodes : List Node) (blackholeFile wormholeFile : Option FileLines) : RunResult :=
  let attack_type := get_attack_type_from_stats nodes
  let pres := preservedLists nodes blackholeFile wormholeFile
  let bh := knownBlackholeIds nodes ++ pres.1
  let wh := knownWormholeIds nodes ++ pres.2
  { blackhole_banlist := bh,
    wormhole_banlist := wh,
    main_banlist := sortedDedup (knownBlackholeIds nodes ++ knownWormholeIds nodes ++ pres.1 ++ pres.2),
    rolledBack := true,
    writeBlackholeFile := (attack_type == AttackType.blackhole) || !bh.isEmpty,
    writeWormholeFile := (attack_type == AttackType.wormhole) || !wh.isEmpty }

/-- The assembly-and-output stage of `main`, from the loaded node table and
the two prior-run category files to the final lists.  The ban-ratio test
`len(main) / len(nodes) > 0.25` is the exact comparison
`4 * len(main) > len(nodes)` once the division is cleared; with an empty
table the division itself raises. -/
def runPipeline (nodes : List Node) (blackholeFile wormholeFile : Option FileLines) :
    Except PipeError RunResult :=
  if nodes.length = 0 then Except.error PipeError.divByZero
  else if 4 * (assembledMain nodes blackholeFile wormholeFile).length > nodes.length then
    Except.ok (rollbackResult nodes blackholeFile wormholeFile)
  else
    Except.ok (normalResult nodes blackholeFile wormholeFile)

/-- The Limit Calculator rule exactly as the specification words it:
`base_cap = max(6, round_down(0.25 * total))`, written as
`(25 * total) / 100` rounded down. -/
def specLimits (total_nodes known_blackhole_count known_wormhole_count : Nat)
    (attack_type : AttackType) : Nat × Nat :=
  let base_cap := max 6 ((25 * total_nodes) / 100)
  match attack_type with
  | AttackType.blackhole =>
    (min base_cap (known_blackhole_count + 1), known_wormhole_count)
  | AttackType.wormhole =>
    (known_blackhole_count, min base_cap (known_wormhole_count + 1))
  | _ =>
    (min base_cap (known_blackhole_count + 1), min base_cap (known_wormhole_count + 1))

/-- A 41-node table with 11 `BLACKHOLE` rows and no traffic: the blackhole
limit is `min(max(6, 10), 12) = 10`, below the known count. -/
def c1Nodes : List Node :=
  (List.range 41).map (fun i => ⟨i, 0, 0, 0, if i < 11 then NodeType.BLACKHOLE else NodeType.NORMAL⟩)

/-- A 10-node table with 7 `BLACKHOLE` rows and no traffic: truncation to 6
forces a ban ratio of 6/10 and the rollback restores all 7 known IDs. -/
def c2Nodes : List Node :=
  (List.range 10).map (fun i => ⟨i, 0, 0, 0, if i < 7 then NodeType.BLACKHOLE else NodeType.NORMAL⟩)

/-- A 20-node blackhole-scenario table where nodes 5 and 6 pass all four
heuristic tests (median rx of the 18 active nodes is 20) while the known
blackholes are the high IDs 30 and 31; the blackhole limit is 3. -/
def c4Nodes : List Node :=
  [⟨5, 0, 100, 0, NodeType.NORMAL⟩, ⟨6, 0, 100, 0, NodeType.NORMAL⟩] ++
  (List.range 16).map (fun i => ⟨7 + i, 0, 20, 50, NodeType.NORMAL⟩) ++
  [⟨30, 0, 0, 0, NodeType.BLACKHOLE⟩, ⟨31, 0, 0, 0, NodeType.BLACKHOLE⟩]

/-- A 4-node mixed-scenario table; with one preserved blackhole ID the run
rolls back (ratio 3/4) and rebuilds the blackhole list by concatenation. -/
def c8Nodes : List Node :=
  [⟨0, 0, 0, 0, NodeType.NORMAL⟩, ⟨1, 0, 0, 0, NodeType.NORMAL⟩,
   ⟨2, 0, 0, 0, NodeType.WORMHOLE⟩, ⟨3, 0, 0, 0, NodeType.BLACKHOLE⟩]

/-- A prior-run blackhole banlist file holding the single ID 0. -/
def c8File : FileLines := [['0']]

/-- A single-node table whose one node is a known blackhole; the run rolls
back (ratio 1/1) and keeps exactly that known ID. -/
def w1Nodes : List Node := [⟨6, 0, 0, 0, NodeType.BLACKHOLE⟩]

/-- An 8-node table with one known blackhole: the run stays on the normal
path (ratio 1/8). -/
def w4Nodes : List Node :=
  [⟨0, 0, 0, 0, NodeType.BLACKHOLE⟩] ++
  (List.range 7).map (fun i => ⟨1 + i, 0, 0, 0, NodeType.NORMAL⟩)

/-! ### Properties of `sortedDedup` -/

theorem mem_insertND {x a : Nat} : ∀ {l : List Nat}, x ∈ insertND a l ↔ x = a ∨ x ∈ l
  | [] => by simp [insertND]
  | b :: t => by
    by_cases h1 : a < b
    · simp [insertND, h1]
    · by_cases h2 : a = b
      · subst h2
        have heq : insertND a (a :: t) = a :: t := by
          show (if a < a then a :: a :: t else if a = a then a :: t else a :: insertND a t) = a :: t
          rw [if_neg h1, if_pos rfl]
        rw [heq, List.mem_cons]
        tauto
      · simp only [insertND, if_neg h1, if_neg h2, List.mem_cons, mem_insertND (l := t)]
        tauto

theorem mem_sortedDedup {x : Nat} : ∀ {l : List Nat}, x ∈ sortedDedup l ↔ x ∈ l
  | [] => by simp [sortedDedup]
  | a :: t => by
    show x ∈ insertND a (sortedDedup t) ↔ x ∈ a :: t
    rw [mem_insertND, mem_sortedDedup (l := t), List.mem_cons]

theorem pairwise_insertND {a : Nat} :
    ∀ {l : List Nat}, l.Pairwise (· < ·) → (insertND a l).Pairwise (· < ·)
  | [], _ => by simp [insertND]
  | b :: t, h => by
    rcases List.pairwise_cons.mp h with ⟨hb, ht⟩
    by_cases h1 : a < b
    · simp only [insertND, if_pos h1]
      refine List.pairwise_cons.mpr ⟨?_, h⟩
      intro x hx
      rcases List.mem_cons.mp hx with rfl | hx
      · exact h1
      · exact lt_trans h1 (hb x hx)
    · by_cases h2 : a = b
      · simpa [insertND, h1, h2] using h
      · simp only [insertND, if_neg h1, if_neg h2]
        refine List.pairwise_cons.mpr ⟨?_, pairwise_insertND ht⟩
        intro x hx
        rcases mem_insertND.mp hx with rfl | hx
        · omega
        · exact hb x hx

theorem pairwise_sortedDedup : ∀ (l : List Nat), (sortedDedup l).Pairwise (· < ·)
  | [] => List.Pairwise.nil
  | _ :: t => pairwise_insertND (pairwise_sortedDedup t)

theorem length_insertND_le (a : Nat) : ∀ (l : List Nat), (insertND a l).length ≤ l.length + 1
  | [] => le_refl 1
  | b :: t => by
    by_cases h1 : a < b
    · simp [insertND, h1]
    · by_cases h2 : a = b
      · simp [insertND, h1, h2]
      · simp only [insertND, if_neg h1, if_neg h2, List.length_cons]
        have := length_insertND_le a t
        omega

theorem length_sortedDedup_le : ∀ (l : List Nat), (sortedDedup l).length ≤ l.length
  | [] => le_refl 0
  | a :: t => by
    show (insertND a (sortedDedup t)).length ≤ t.length + 1
    have h1 := length_insertND_le a (sortedDedup t)
    have h2 := length_sortedDedup_le t
    omega

theorem eq_of_pairwise_lt_of_mem_iff :
    ∀ {l₁ l₂ : List Nat}, l₁.Pairwise (· < ·) → l₂.Pairwise (· < ·) →
      (∀ x, x ∈ l₁ ↔ x ∈ l₂) → l₁ = l₂
  | [], [], _, _, _ => rfl
  | [], b :: t₂, _, _, hmem => absurd ((hmem b).mpr (List.mem_cons_self b t₂)) (List.not_mem_nil b)
  | a :: t₁, [], _, _, hmem => absurd ((hmem a).mp (List.mem_cons_self a t₁)) (List.not_mem_nil a)
  | a :: t₁, b :: t₂, h₁, h₂, hmem => by
    have hab : a = b := by
      rcases List.mem_cons.mp ((hmem a).mp (List.mem_cons_self a t₁)) with h | h
      · exact h
      · rcases List.mem_cons.mp ((hmem b).mpr (List.mem_cons_self b t₂)) with h' | h'
        · exact h'.symm
        · have hba := List.rel_of_pairwise_cons h₂ h
          have hab := List.rel_of_pairwise_cons h₁ h'
          omega
    subst hab
    have htails : ∀ x, x ∈ t₁ ↔ x ∈ t₂ := by
      intro x
      constructor
      · intro hx
        have hax := List.rel_of_pairwise_cons h₁ hx
        rcases List.mem_cons.mp ((hmem x).mp (List.mem_cons_of_mem a hx)) with rfl | h
        · omega
        · exact h
      · intro hx
        have hax := List.rel_of_pairwise_cons h₂ hx
        rcases List.mem_cons.mp ((hmem x).mpr (List.mem_cons_of_mem a hx)) with rfl | h
        · omega
        · exact h
    rw [eq_of_pairwise_lt_of_mem_iff (List.Pairwise.of_cons h₁) (List.Pairwise.of_cons h₂) htails]

theorem sortedDedup_congr {l₁ l₂ : List Nat} (h : ∀ x, x ∈ l₁ ↔ x ∈ l₂) :
    sortedDedup l₁ = sortedDedup l₂ :=
  eq_of_pairwise_lt_of_mem_iff (pairwise_sortedDedup l₁) (pairwise_sortedDedup l₂)
    (fun x => mem_sortedDedup.trans ((h x).trans mem_sortedDedup.symm))

/-! ### Properties of `limitList` and the pipeline branches -/

theorem limitList_eq_take (maxN : Nat) (l : List Nat) : limitList maxN l = l.take maxN := by
  unfold limitList
  split
  · rfl
  · exact (List.take_of_length_le (by omega)).symm

theorem length_limitList_le (maxN : Nat) (l : List Nat) : (limitList maxN l).length ≤ maxN := by
  unfold limitList
  split
  · simp [List.length_take]
  · omega

theorem mem_sortedDedup_limit_of_base {base heur : List Nat} {maxN : Nat} {x : Nat}
    (hlen : base.length ≤ maxN) (hx : x ∈ base) :
    x ∈ sortedDedup (limitList maxN (base ++ heur)) := by
  apply mem_sortedDedup.mpr
  rw [limitList_eq_take, List.take_append_eq_append_take, List.take_of_length_le hlen]
  exact List.mem_append_left _ hx

theorem runPipeline_ok_cases {nodes : List Node} {fb fw : Option FileLines} {r : RunResult}
    (h : runPipeline nodes fb fw = Except.ok r) :
    (4 * (assembledMain nodes fb fw).length > nodes.length ∧ r = rollbackResult nodes fb fw) ∨
    (4 * (assembledMain nodes fb fw).length ≤ nodes.length ∧ r = normalResult nodes fb fw) := by
  unfold runPipeline at h
  split at h
  · exact absurd h (by simp)
  · split at h
    · injection h with h'
      exact Or.inl ⟨by assumption, h'.symm⟩
    · injection h with h'
      exact Or.inr ⟨by omega, h'.symm⟩

theorem rollbackResult_rolledBack (nodes : List Node) (fb fw : Option FileLines) :
    (rollbackResult nodes fb fw).rolledBack = true := rfl

theorem normalResult_rolledBack (nodes : List Node) (fb fw : Option FileLines) :
    (normalResult nodes fb fw).rolledBack = false := rfl

/-! ### Claim theorems -/

/-- Claim C5: for every input node table and preserved-banlist content, the
final combined banlist equals the ascending-sorted, duplicate-free union of
the final blackhole and wormhole banlists, on both the normal path and the
rollback path. -/
theorem c5_combined_is_sorted_union (nodes : List Node) (fb fw : Option FileLines) (r : RunResult)
    (hok : runPipeline nodes fb fw = Except.ok r) :
    r.main_banlist = sortedDedup (r.blackhole_banlist ++ r.wormhole_banlist) := by
  rcases runPipeline_ok_cases hok with ⟨_, rfl⟩ | ⟨_, rfl⟩
  · show sortedDedup (knownBlackholeIds nodes ++ knownWormholeIds nodes ++
        (preservedLists nodes fb fw).1 ++ (preservedLists nodes fb fw).2) =
      sortedDedup ((knownBlackholeIds nodes ++ (preservedLists nodes fb fw).1) ++
        (knownWormholeIds nodes ++ (preservedLists nodes fb fw).2))
    apply sortedDedup_congr
    intro x
    simp only [List.mem_append]
    constructor
    · rintro (((h | h) | h) | h)
      · exact Or.inl (Or.inl h)
      · exact Or.inr (Or.inl h)
      · exact Or.inl (Or.inr h)
      · exact Or.inr (Or.inr h)
    · rintro ((h | h) | (h | h))
      · exact Or.inl (Or.inl (Or.inl h))
      · exact Or.inl (Or.inr h)
      · exact Or.inl (Or.inl (Or.inr h))
      · exact Or.inr h
  · rfl

/-- Witness for C5 at a concrete single-node run (rollback path). -/
theorem c5_combined_is_sorted_union_witness :
    ([6] : List Nat) = sortedDedup ([6] ++ ([] : List Nat)) :=
  c5_combined_is_sorted_union w1Nodes none none
    ⟨[6], [], [6], true, true, false⟩ (by rfl)

/-- Claim C6: the Limit Calculator returns exactly the limits the
specification states, with `base_cap = max(6, round_down(0.25 * total))`,
for every node table, known lists and attack type. -/
theorem c6_limit_calculator_formula (nodes known_blackholes known_wormholes : List Node)
    (attack_type : AttackType) :
    calculate_dynamic_limits nodes known_blackholes known_wormholes attack_type =
      specLimits nodes.length known_blackholes.length known_wormholes.length attack_type := by
  have hq : 25 * nodes.length / 100 = nodes.length / 4 := by omega
  cases attack_type <;> simp [calculate_dynamic_limits, specLimits, hq]

/-- Claim C7: for every node table, median and candidate set, each detector
returns the empty sequence on every attack type other than its own category
(exhaustive over the four attack types and both detectors). -/
theorem c7_detectors_empty_off_category (nodes : List Node) (median_rx : Frac)
    (available_nodes : List Nat) :
    detect_blackholes nodes median_rx available_nodes AttackType.baseline = [] ∧
    detect_blackholes nodes median_rx available_nodes AttackType.wormhole = [] ∧
    detect_blackholes nodes median_rx available_nodes AttackType.mixed = [] ∧
    detect_wormholes nodes median_rx available_nodes AttackType.baseline = [] ∧
    detect_wormholes nodes median_rx available_nodes AttackType.blackhole = [] ∧
    detect_wormholes nodes median_rx available_nodes AttackType.mixed = [] :=
  ⟨rfl, rfl, rfl, rfl, rfl, rfl⟩

/-- Claim C10: with an empty node table the assembly stage fails on the
ban-ratio division by zero before any output is produced, and with a
non-empty table the run always reaches the output stage. -/
theorem c10_empty_table_divzero (nodes : List Node) (fb fw : Option FileLines) :
    (nodes = [] → runPipeline nodes fb fw = Except.error PipeError.divByZero) ∧
    (nodes ≠ [] → ∃ r, runPipeline nodes fb fw = Except.ok r) := by
  constructor
  · rintro rfl
    rfl
  · intro hne
    unfold runPipeline
    rw [if_neg (fun h => hne (List.length_eq_zero.mp h))]
    split
    · exact ⟨_, rfl⟩
    · exact ⟨_, rfl⟩

/-- Witness for C10: the empty table errors; a concrete 8-node table runs
to completion. -/
theorem c10_empty_table_divzero_witness :
    runPipeline ([] : List Node) none none = Except.error PipeError.divByZero ∧
    (∃ r, runPipeline w4Nodes none none = Except.ok r) :=
  ⟨(c10_empty_table_divzero [] none none).1 rfl,
   (c10_empty_table_divzero w4Nodes none none).2 (by decide)⟩

/-- Counterexample to C1 as stated: in a 41-node run with 11 known
blackholes, node 10 is labelled `BLACKHOLE` yet is absent from the final
blackhole banlist (the limit 10 truncates it and no rollback occurs). -/
theorem c1_counterexample :
    (⟨10, 0, 0, 0, NodeType.BLACKHOLE⟩ : Node) ∈ c1Nodes ∧
    runPipeline c1Nodes none none =
      Except.ok ⟨[0, 1, 2, 3, 4, 5, 6, 7, 8, 9], [], [0, 1, 2, 3, 4, 5, 6, 7, 8, 9], false, true, false⟩ ∧
    (10 : Nat) ∉ ([0, 1, 2, 3, 4, 5, 6, 7, 8, 9] : List Nat) :=
  ⟨by decide, by rfl, by decide⟩

/-- Counterexample to C2 as stated: in a 10-node run with 7 known
blackholes the rollback path is taken, and the final combined banlist has
7 entries, a ban ratio of 7/10 > 0.25. -/
theorem c2_counterexample :
    runPipeline c2Nodes none none =
      Except.ok ⟨[0, 1, 2, 3, 4, 5, 6], [], [0, 1, 2, 3, 4, 5, 6], true, true, false⟩ ∧
    4 * ([0, 1, 2, 3, 4, 5, 6] : List Nat).length > c2Nodes.length :=
  ⟨by rfl, by decide⟩

/-- Counterexample to C3 as stated: the same rolled-back run ends with a
blackhole banlist of 7 entries while `max_blackhole` is 6. -/
theorem c3_counterexample :
    runPipeline c2Nodes none none =
      Except.ok ⟨[0, 1, 2, 3, 4, 5, 6], [], [0, 1, 2, 3, 4, 5, 6], true, true, false⟩ ∧
    ¬ ([0, 1, 2, 3, 4, 5, 6] : List Nat).length ≤ (banLimits c2Nodes).1 :=
  ⟨by rfl, by decide⟩

/-- Counterexample to C4 as stated: the merged set is `{5, 6, 30, 31}` with
limit 3, whose three smallest members are `[5, 6, 30]`, yet the retained
blackhole banlist is `[5, 30, 31]` (heuristic node 6 is truncated before
the larger known IDs 30 and 31). -/
theorem c4_counterexample :
    runPipeline c4Nodes none none =
      Except.ok ⟨[5, 30, 31], [], [5, 30, 31], false, true, false⟩ ∧
    (banLimits c4Nodes).1 = 3 ∧
    sortedDedup ((preservedLists c4Nodes none none).1 ++ knownBlackholeIds c4Nodes ++
      heuristicAdditionsB c4Nodes) = [5, 6, 30, 31] ∧
    (sortedDedup ((preservedLists c4Nodes none none).1 ++ knownBlackholeIds c4Nodes ++
      heuristicAdditionsB c4Nodes)).take 3 = [5, 6, 30] ∧
    ([5, 30, 31] : List Nat) ≠ [5, 6, 30] :=
  ⟨by rfl, by rfl, by rfl, by rfl, by decide⟩

/-- Counterexample to C8 as stated: a rolled-back mixed run with preserved
blackhole ID 0 writes the blackhole file as the lines `3` then `0`, which
is not ascending. -/
theorem c8_counterexample :
    runPipeline c8Nodes (some c8File) none =
      Except.ok ⟨[3, 0], [2], [0, 2, 3], true, true, true⟩ ∧
    ¬ ([3, 0] : List Nat).Pairwise (· < ·) :=
  ⟨by rfl, by decide⟩

/-- Claim C1 (amended): every known-malicious node ID of the current run
appears in its category's final banlist provided the deduplicated union of
that category's preserved and known IDs does not exceed the category's
limit (heuristic additions are appended after that union, so they are
truncated first); without that proviso the claim fails, because the limit
is capped by `base_cap` and truncation then removes the largest known IDs
on the non-rollback path. -/
theorem c1_known_ids_in_final_banlist (nodes : List Node) (fb fw : Option FileLines)
    (r : RunResult) (hok : runPipeline nodes fb fw = Except.ok r) :
    ((sortedDedup ((preservedLists nodes fb fw).1 ++ knownBlackholeIds nodes)).length ≤
        (banLimits nodes).1 →
      ∀ x ∈ knownBlackholeIds nodes, x ∈ r.blackhole_banlist) ∧
    ((sortedDedup ((preservedLists nodes fb fw).2 ++ knownWormholeIds nodes)).length ≤
        (banLimits nodes).2 →
      ∀ x ∈ knownWormholeIds nodes, x ∈ r.wormhole_banlist) := by
  rcases runPipeline_ok_cases hok with ⟨_, rfl⟩ | ⟨_, rfl⟩
  · refine ⟨fun _ x hx => ?_, fun _ x hx => ?_⟩
    · show x ∈ knownBlackholeIds nodes ++ (preservedLists nodes fb fw).1
      exact List.mem_append_left _ hx
    · show x ∈ knownWormholeIds nodes ++ (preservedLists nodes fb fw).2
      exact List.mem_append_left _ hx
  · refine ⟨fun hlen x hx => ?_, fun hlen x hx => ?_⟩
    · show x ∈ sortedDedup (limitList (banLimits nodes).1
        (sortedDedup ((preservedLists nodes fb fw).1 ++ knownBlackholeIds nodes) ++
          heuristicAdditionsB nodes))
      exact mem_sortedDedup_limit_of_base hlen
        (mem_sortedDedup.mpr (List.mem_append_right _ hx))
    · show x ∈ sortedDedup (limitList (banLimits nodes).2
        (sortedDedup ((preservedLists nodes fb fw).2 ++ knownWormholeIds nodes) ++
          heuristicAdditionsW nodes))
      exact mem_sortedDedup_limit_of_base hlen
        (mem_sortedDedup.mpr (List.mem_append_right _ hx))

/-- Witness for C1 at a concrete single-blackhole run. -/
theorem c1_known_ids_in_final_banlist_witness :
    (6 : Nat) ∈ (RunResult.mk [6] [] [6] true true false).blackhole_banlist :=
  (c1_known_ids_in_final_banlist w1Nodes none none ⟨[6], [], [6], true, true, false⟩
    (by rfl)).1 (by decide) 6 (by decide)

/-- Claim C2 (amended): on the non-rollback path the final combined list
satisfies the 0.25 ratio bound, and on the rollback path the three lists
contain only the current run's known-malicious IDs plus the preserved IDs
with all heuristic detections discarded; the unamended claim fails because
the rolled-back combined list itself may exceed the 0.25 ratio. -/
theorem c2_ban_ratio_and_rollback (nodes : List Node) (fb fw : Option FileLines) (r : RunResult)
    (hok : runPipeline nodes fb fw = Except.ok r) :
    (r.rolledBack = false → 4 * r.main_banlist.length ≤ nodes.length) ∧
    (r.rolledBack = true →
      r.blackhole_banlist = knownBlackholeIds nodes ++ (preservedLists nodes fb fw).1 ∧
      r.wormhole_banlist = knownWormholeIds nodes ++ (preservedLists nodes fb fw).2 ∧
      r.main_banlist = sortedDedup (knownBlackholeIds nodes ++ knownWormholeIds nodes ++
        (preservedLists nodes fb fw).1 ++ (preservedLists nodes fb fw).2)) := by
  rcases runPipeline_ok_cases hok with ⟨_, rfl⟩ | ⟨hle, rfl⟩
  · constructor
    · intro h
      rw [rollbackResult_rolledBack] at h
      exact Bool.noConfusion h
    · intro _
      exact ⟨rfl, rfl, rfl⟩
  · constructor
    · intro _
      show 4 * (assembledMain nodes fb fw).length ≤ nodes.length
      exact hle
    · intro h
      rw [normalResult_rolledBack] at h
      exact Bool.noConfusion h

/-- Witness for C2 at a concrete 8-node non-rollback run. -/
theorem c2_ban_ratio_and_rollback_witness :
    4 * (RunResult.mk [0] [] [0] false true false).main_banlist.length ≤ w4Nodes.length :=
  (c2_ban_ratio_and_rollback w4Nodes none none ⟨[0], [], [0], false, true, false⟩ (by rfl)).1 rfl

/-- Claim C3 (amended): the final category banlists respect the computed
limits on the non-rollback path; the unamended claim fails because the
rollback rebuilds the category lists as known plus preserved IDs, which
can exceed the limits. -/
theorem c3_limits_hold_without_rollback (nodes : List Node) (fb fw : Option FileLines)
    (r : RunResult) (hok : runPipeline nodes fb fw = Except.ok r)
    (hnr : r.rolledBack = false) :
    r.blackhole_banlist.length ≤ (banLimits nodes).1 ∧
    r.wormhole_banlist.length ≤ (banLimits nodes).2 := by
  rcases runPipeline_ok_cases hok with ⟨_, rfl⟩ | ⟨_, rfl⟩
  · rw [rollbackResult_rolledBack] at hnr
    exact Bool.noConfusion hnr
  · constructor
    · show (sortedDedup (limitList (banLimits nodes).1
        (preLimitB nodes (preservedLists nodes fb fw).1))).length ≤ (banLimits nodes).1
      have h1 := length_sortedDedup_le
        (limitList (banLimits nodes).1 (preLimitB nodes (preservedLists nodes fb fw).1))
      have h2 := length_limitList_le (banLimits nodes).1
        (preLimitB nodes (preservedLists nodes fb fw).1)
      omega
    · show (sortedDedup (limitList (banLimits nodes).2
        (preLimitW nodes (preservedLists nodes fb fw).2))).length ≤ (banLimits nodes).2
      have h1 := length_sortedDedup_le
        (limitList (banLimits nodes).2 (preLimitW nodes (preservedLists nodes fb fw).2))
      have h2 := length_limitList_le (banLimits nodes).2
        (preLimitW nodes (preservedLists nodes fb fw).2)
      omega

/-- Witness for C3 at a concrete 8-node non-rollback run. -/
theorem c3_limits_hold_without_rollback_witness :
    (RunResult.mk [0] [] [0] false true false).blackhole_banlist.length ≤ (banLimits w4Nodes).1 ∧
    (RunResult.mk [0] [] [0] false true false).wormhole_banlist.length ≤ (banLimits w4Nodes).2 :=
  c3_limits_hold_without_rollback w4Nodes none none ⟨[0], [], [0], false, true, false⟩ (by rfl) rfl

/-- Claim C4 (amended): on the non-rollback path, the retained entries of a
category are the first N entries of the list formed by the ascending-sorted
deduplicated merge of the preserved and known IDs followed by the heuristic
detections in table-scan order, re-sorted and deduplicated; they are not in
general the N smallest members of the full merged set, because the
heuristic detections are appended after the sorted preserved-and-known
prefix rather than merged into it before truncation. -/
theorem c4_truncation_keeps_first_entries (nodes : List Node) (fb fw : Option FileLines)
    (r : RunResult) (hok : runPipeline nodes fb fw = Except.ok r)
    (hnr : r.rolledBack = false) :
    r.blackhole_banlist =
      sortedDedup ((preLimitB nodes (preservedLists nodes fb fw).1).take (banLimits nodes).1) ∧
    r.wormhole_banlist =
      sortedDedup ((preLimitW nodes (preservedLists nodes fb fw).2).take (banLimits nodes).2) := by
  rcases runPipeline_ok_cases hok with ⟨_, rfl⟩ | ⟨_, rfl⟩
  · rw [rollbackResult_rolledBack] at hnr
    exact Bool.noConfusion hnr
  · constructor
    · show sortedDedup (limitList (banLimits nodes).1
        (preLimitB nodes (preservedLists nodes fb fw).1)) = _
      rw [limitList_eq_take]
    · show sortedDedup (limitList (banLimits nodes).2
        (preLimitW nodes (preservedLists nodes fb fw).2)) = _
      rw [limitList_eq_take]

/-- Witness for C4 at a concrete 8-node non-rollback run. -/
theorem c4_truncation_keeps_first_entries_witness :
    (RunResult.mk [0] [] [0] false true false).blackhole_banlist =
      sortedDedup ((preLimitB w4Nodes (preservedLists w4Nodes none none).1).take (banLimits w4Nodes).1) ∧
    (RunResult.mk [0] [] [0] false true false).wormhole_banlist =
      sortedDedup ((preLimitW w4Nodes (preservedLists w4Nodes none none).2).take (banLimits w4Nodes).2) :=
  c4_truncation_keeps_first_entries w4Nodes none none ⟨[0], [], [0], false, true, false⟩ (by rfl) rfl

/-- Claim C8 (amended): on runs that do not take the rollback path, each
written category banlist is one node ID per line in strictly ascending
order with no duplicates; the unamended claim fails on rollback runs,
where a category file is written as the known IDs followed by the preserved
IDs, possibly out of order or with duplicates. -/
theorem c8_category_files_sorted_without_rollback (nodes : List Node) (fb fw : Option FileLines)
    (r : RunResult) (hok : runPipeline nodes fb fw = Except.ok r)
    (hnr : r.rolledBack = false) :
    r.blackhole_banlist.Pairwise (· < ·) ∧ r.wormhole_banlist.Pairwise (· < ·) := by
  rcases runPipeline_ok_cases hok with ⟨_, rfl⟩ | ⟨_, rfl⟩
  · rw [rollbackResult_rolledBack] at hnr
    exact Bool.noConfusion hnr
  · exact ⟨pairwise_sortedDedup _, pairwise_sortedDedup _⟩

/-- Witness for C8 at a concrete 8-node non-rollback run. -/
theorem c8_category_files_sorted_without_rollback_witness :
    (RunResult.mk [0] [] [0] false true false).blackhole_banlist.Pairwise (· < ·) ∧
    (RunResult.mk [0] [] [0] false true false).wormhole_banlist.Pairwise (· < ·) :=
  c8_category_files_sorted_without_rollback w4Nodes none none
    ⟨[0], [], [0], false, true, false⟩ (by rfl) rfl

/-! ### Round-trip of the writer and the preserver -/

theorem digitChar_isDigit {d : Nat} (hd : d < 10) : (Char.ofNat (48 + d)).isDigit = true := by
  interval_cases d <;> decide

theorem digitChar_not_ws {d : Nat} (hd : d < 10) : (Char.ofNat (48 + d)).isWhitespace = false := by
  interval_cases d <;> decide

theorem digitChar_toNat {d : Nat} (hd : d < 10) : (Char.ofNat (48 + d)).toNat = 48 + d := by
  interval_cases d <;> decide

theorem foldl_digit_chars : ∀ (ds : List Nat) (a : Nat), (∀ d ∈ ds, d < 10) →
    (ds.map (fun d => Char.ofNat (48 + d))).foldl (fun acc c => acc * 10 + (c.toNat - 48)) a =
      a * 10 ^ ds.length + Nat.ofDigits 10 ds.reverse
  | [], a, _ => by simp [Nat.ofDigits]
  | d :: t, a, h => by
    have hd : d < 10 := h d (List.mem_cons_self d t)
    have ht : ∀ x ∈ t, x < 10 := fun x hx => h x (List.mem_cons_of_mem d hx)
    simp only [List.map_cons, List.foldl_cons, digitChar_toNat hd]
    rw [show 48 + d - 48 = d by omega]
    rw [foldl_digit_chars t (a * 10 + d) ht]
    rw [List.reverse_cons, Nat.ofDigits_append]
    simp only [List.length_cons, List.length_reverse, Nat.ofDigits_singleton, pow_succ]
    ring

theorem mem_natToLine {c : Char} {n : Nat} (hc : c ∈ natToLine n) :
    ∃ d, d < 10 ∧ c = Char.ofNat (48 + d) := by
  unfold natToLine at hc
  split at hc
  · simp only [List.mem_singleton] at hc
    exact ⟨0, by omega, by rw [hc]⟩
  · rcases List.mem_map.mp hc with ⟨d, hd, rfl⟩
    exact ⟨d, Nat.digits_lt_base (by norm_num) (List.mem_reverse.mp hd), rfl⟩

theorem natToLine_ne_nil (n : Nat) : natToLine n ≠ [] := by
  unfold natToLine
  split
  · simp
  · next h =>
    intro hcon
    have h1 : (Nat.digits 10 n).reverse = [] := by
      cases hrev : (Nat.digits 10 n).reverse with
      | nil => rfl
      | cons a t =>
        rw [hrev] at hcon
        simp at hcon
    have h2 : Nat.digits 10 n = [] := by
      have := congrArg List.reverse h1
      simpa using this
    exact h (Nat.digits_eq_nil_iff_eq_zero.mp h2)

theorem natToLine_isEmpty (n : Nat) : (natToLine n).isEmpty = false := by
  cases hl : natToLine n with
  | nil => exact absurd hl (natToLine_ne_nil n)
  | cons a t => rfl

theorem stripLine_eq_self {l : List Char} (h : ∀ c ∈ l, c.isWhitespace = false) :
    stripLine l = l := by
  have hdrop : ∀ (m : List Char), (∀ c ∈ m, c.isWhitespace = false) →
      m.dropWhile Char.isWhitespace = m := by
    intro m hm
    cases m with
    | nil => rfl
    | cons c t => simp [List.dropWhile_cons, hm c (List.mem_cons_self c t)]
  unfold stripLine
  rw [hdrop l h, hdrop l.reverse (fun c hc => h c (List.mem_reverse.mp hc))]
  exact List.reverse_reverse l

theorem stripLine_natToLine (n : Nat) : stripLine (natToLine n) = natToLine n :=
  stripLine_eq_self (fun c hc => by
    rcases mem_natToLine hc with ⟨d, hd, rfl⟩
    exact digitChar_not_ws hd)

theorem parseIntLine_natToLine (n : Nat) : parseIntLine (natToLine n) = some n := by
  by_cases h0 : n = 0
  · subst h0
    decide
  · have hall : (natToLine n).all Char.isDigit = true := by
      rw [List.all_eq_true]
      intro c hc
      rcases mem_natToLine hc with ⟨d, hd, rfl⟩
      exact digitChar_isDigit hd
    have hcond : (!(natToLine n).isEmpty && (natToLine n).all Char.isDigit) = true := by
      rw [natToLine_isEmpty, hall]
      rfl
    unfold parseIntLine
    rw [if_pos hcond]
    congr 1
    show (natToLine n).foldl (fun acc c => acc * 10 + (c.toNat - 48)) 0 = n
    unfold natToLine
    rw [if_neg h0]
    rw [foldl_digit_chars _ 0
      (fun d hd => Nat.digits_lt_base (by norm_num) (List.mem_reverse.mp hd))]
    simp [Nat.ofDigits_digits]

theorem loadBanlistFile_writeBanlist (ids : List Nat) :
    loadBanlistFile (writeBanlist ids) = ids := by
  have h : ∀ (l : List Nat), loadLinesInner (l.map natToLine) = some l := by
    intro l
    induction l with
    | nil => rfl
    | cons i t ih =>
      show loadLinesInner (natToLine i :: t.map natToLine) = some (i :: t)
      simp only [loadLinesInner, stripLine_natToLine, natToLine_isEmpty,
        Bool.false_eq_true, if_false, parseIntLine_natToLine, ih]
  simp [loadBanlistFile, writeBanlist, h]

/-- Claim C9: writing a category list and re-loading that file via the
Banlist Preserver in a later invocation whose attack type does not match
the category yields the same set of node IDs, for both categories. -/
theorem c9_write_load_roundtrip (ids : List Nat) (attack_type : AttackType)
    (other : Option FileLines) :
    (attack_type ≠ AttackType.blackhole →
      ∀ x, x ∈ (preserve_existing_banlists attack_type (some (writeBanlist ids)) other).1 ↔
        x ∈ ids) ∧
    (attack_type ≠ AttackType.wormhole →
      ∀ x, x ∈ (preserve_existing_banlists attack_type other (some (writeBanlist ids))).2 ↔
        x ∈ ids) := by
  constructor
  · intro hne x
    show x ∈ (if attack_type ≠ AttackType.blackhole
        then ((some (writeBanlist ids)).map loadBanlistFile).getD [] else []) ↔ x ∈ ids
    rw [if_pos hne]
    rw [show ((some (writeBanlist ids)).map loadBanlistFile).getD [] =
      loadBanlistFile (writeBanlist ids) from rfl]
    rw [loadBanlistFile_writeBanlist]
  · intro hne x
    show x ∈ (if attack_type ≠ AttackType.wormhole
        then ((some (writeBanlist ids)).map loadBanlistFile).getD [] else []) ↔ x ∈ ids
    rw [if_pos hne]
    rw [show ((some (writeBanlist ids)).map loadBanlistFile).getD [] =
      loadBanlistFile (writeBanlist ids) from rfl]
    rw [loadBanlistFile_writeBanlist]

/-- Witness for C9 at a concrete two-entry list and a baseline re-load. -/
theorem c9_write_load_roundtrip_witness :
    (7 : Nat) ∈ (preserve_existing_banlists AttackType.baseline
      (some (writeBanlist [3, 7])) none).1 ↔ (7 : Nat) ∈ ([3, 7] : List Nat) :=
  (c9_write_load_roundtrip [3, 7] AttackType.baseline none).1 (by decide) 7
